import Mathlib

/-!
Shallow embedding of `src/lecture_3/main.py` (Student Grade Analyzer).

Modelling conventions:
- A Python student dict `{"name": ..., "grades": [...]}` becomes the
  structure `Student`; the shared list becomes `Roster := List Student`.
- Interactive input is modelled by passing the pending lines of standard
  input as a `List String`; an input-reading loop consumes that list and,
  when the script runs out, stops (the real program would block waiting
  for more input, a state no claim talks about).
- Console output is modelled as a list of `Out` events, one per `print`
  call that mentions program state; each constructor documents the
  literal message it stands for.
- Python floats are modelled exactly as rationals: every average in the
  program is `sum(grades)/len(grades)` of small integers, and the claims
  speak of arithmetic means.  Formatting with `:.1f` is modelled by
  `round1`, rounding to one decimal digit.
- `int(...)` applied to an input token is modelled by `pyParseInt`
  (strip whitespace, optional sign, digits); failure is `none` where the
  Python raises `ValueError`.
-/

/-- One student record: `{"name": name, "grades": grades}`. -/
structure Student where
  name : String
  grades : List Int
deriving Repr, DecidableEq

/-- The shared in-memory list `student_list`. -/
abbrev Roster := List Student

/-- Python `str.strip()`: drop whitespace from both ends. -/
def pyStrip (s : String) : String :=
  ⟨((s.data.dropWhile Char.isWhitespace).reverse.dropWhile Char.isWhitespace).reverse⟩

/-- Python `str.lower()` on the ASCII fragment, one character. -/
def pyCharLower (c : Char) : Char :=
  if 'A' ≤ c ∧ c ≤ 'Z' then Char.ofNat (c.toNat + 32) else c

/-- Python `str.lower()` on the ASCII fragment. -/
def pyLower (s : String) : String :=
  ⟨s.data.map pyCharLower⟩

/-- Python `str.isdigit()` on the ASCII fragment: nonempty and all digits. -/
def pyIsDigit (s : String) : Bool :=
  !s.data.isEmpty && s.data.all Char.isDigit

/-- Value of a digit string. -/
def digitsToNat (l : List Char) : Nat :=
  l.foldl (fun a c => 10 * a + (c.toNat - 48)) 0

/-- A nonempty all-digit string parses to its value, anything else fails. -/
def digitsToNat? (l : List Char) : Option Nat :=
  if !l.isEmpty && l.all Char.isDigit then some (digitsToNat l) else none

/-- Python `int(token)` on a string: strips surrounding whitespace, then an
optional sign followed by digits; `none` models the `ValueError` branch. -/
def pyParseInt (s : String) : Option Int :=
  match (pyStrip s).data with
  | '+' :: ds => (digitsToNat? ds).map Int.ofNat
  | '-' :: ds => (digitsToNat? ds).map fun n => -(n : Int)
  | ds => (digitsToNat? ds).map Int.ofNat

/-- Arithmetic mean `sum(grades) / len(grades)` (exact, as a rational). -/
def avg (grades : List Int) : ℚ :=
  (grades.sum : ℚ) / (grades.length : ℚ)

/-- Rounding to one decimal place, modelling the `:.1f` format. -/
def round1 (q : ℚ) : ℚ :=
  ((round (10 * q) : ℤ) : ℚ) / 10

/-- Console output events, one per state-dependent `print`. -/
inductive Out where
  /-- the line `----- Student Report -----` -/
  | reportHeader
  /-- the line `No students in records` -/
  | noStudentsMsg
  /-- the line `No students have grades yet` -/
  | noGradedMsg
  /-- a line `{name}'s average grade: {avg}`; `none` is the `N/A` sentinel -/
  | studentAvgLine (name : String) (a : Option ℚ)
  /-- the separator line of dashes around the statistics block -/
  | separator
  /-- the line `Highest Average: {x:.1f}` (already rounded) -/
  | highestLine (x : ℚ)
  /-- the line `Lowest Average: {x:.1f}` (already rounded) -/
  | lowestLine (x : ℚ)
  /-- the line `Class Average: {x:.1f}` (already rounded) -/
  | classAvgLine (x : ℚ)
  /-- the line `Top student: {name} with average grade {a:.1f}` -/
  | topStudentLine (name : String) (a : ℚ)
deriving Repr, DecidableEq

/-- `is_valid_name`: `bool(name and not name.isdigit())`. -/
def is_valid_name (name : String) : Bool :=
  !name.data.isEmpty && !pyIsDigit name

/-- `is_duplicate_name`: `any(name == student["name"] for student in student_list)`. -/
def is_duplicate_name (name : String) (student_list : Roster) : Bool :=
  student_list.any fun student => name == student.name

/-- `get_valid_student_name` run on the pending input lines: re-prompts on an
invalid (empty or all-digit) stripped name, returns `some none` on a
duplicate (the Python `return None`), `some (some n)` on success, and
`none` when the input script is exhausted while still prompting. -/
def get_valid_student_name (students : Roster) : List String → Option (Option String)
  | [] => none
  | line :: rest =>
    let name_input := pyStrip line
    if !is_valid_name name_input then
      get_valid_student_name students rest
    else if is_duplicate_name name_input students then
      some none
    else
      some (some name_input)

/-- `add_new_student`: appends `{"name": name, "grades": []}` when
`get_valid_student_name` produced a name. -/
def add_new_student (student_list : Roster) (inputs : List String) : Roster :=
  match get_valid_student_name student_list inputs with
  | some (some name) => student_list ++ [⟨name, []⟩]
  | _ => student_list

/-- `find_student_by_name`: first record whose `name` matches exactly. -/
def find_student_by_name (name : String) : Roster → Option Student
  | [] => none
  | person :: rest =>
    if person.name == name then some person else find_student_by_name name rest

/-- `validate_grade_input`: `int(...)` then range check `0 <= grade <= 100`;
`none` covers both the `ValueError` and the out-of-range branch. -/
def validate_grade_input (input_string : String) : Option Int :=
  match pyParseInt input_string with
  | some grade => if 0 ≤ grade ∧ grade ≤ 100 then some grade else none
  | none => none

/-- The grade sub-loop of `add_grades_to_student`, acting on the grade list
of the found student: each token is checked against the lowercased sentinel
`done`, otherwise validated and, when valid, appended immediately. -/
def add_grades_to_student (grades : List Int) : List String → List Int
  | [] => grades
  | grade_input :: rest =>
    if pyLower grade_input == "done" then grades
    else
      match validate_grade_input grade_input with
      | some grade_value => add_grades_to_student (grades ++ [grade_value]) rest
      | none => add_grades_to_student grades rest

/-- In-place mutation of the found student dict: replace the grade list of
the first record carrying `name` (the one `find_student_by_name` returned). -/
def update_first (name : String) (newGrades : List Int) : Roster → Roster
  | [] => []
  | person :: rest =>
    if person.name == name then { person with grades := newGrades } :: rest
    else person :: update_first name newGrades rest

/-- `add_student_grades`: look the stripped name up; on `not found` return
with the roster untouched, otherwise run the grade sub-loop on that
student's grade list. -/
def add_student_grades (student_list : Roster) (name_input : String)
    (grade_inputs : List String) : Roster :=
  let name := pyStrip name_input
  match find_student_by_name name student_list with
  | none => student_list
  | some student =>
      update_first name (add_grades_to_student student.grades grade_inputs) student_list

/-- `calculate_average_grade`: `N/A` (here `none`) for an empty list,
otherwise the mean. -/
def calculate_average_grade (grades : List Int) : Option ℚ :=
  if grades.isEmpty then none
  else some ((grades.sum : ℚ) / (grades.length : ℚ))

/-- `display_student_grades`: one average line per record, in order. -/
def display_student_grades : Roster → List Out
  | [] => []
  | person :: rest =>
    .studentAvgLine person.name (calculate_average_grade person.grades)
      :: display_student_grades rest

/-- `has_graded_students`: `any(student["grades"] for student in student_list)`. -/
def has_graded_students (student_list : Roster) : Bool :=
  student_list.any fun student => !student.grades.isEmpty

/-- The accumulation loop of `display_statistics`: the averages of the
records with a nonempty grade list, in order. -/
def collect_averages : Roster → List ℚ
  | [] => []
  | person :: rest =>
    if !person.grades.isEmpty then avg person.grades :: collect_averages rest
    else collect_averages rest

/-- Python `max` over a nonempty list of numbers, here with the head split
off; `0` pads the empty case the source guards against. -/
def pymaxQ : List ℚ → ℚ
  | [] => 0
  | q :: rest => rest.foldl max q

/-- Python `min` over a nonempty list of numbers. -/
def pyminQ : List ℚ → ℚ
  | [] => 0
  | q :: rest => rest.foldl min q

/-- `display_statistics`: collect the averages, and when any exist print the
highest, lowest and class average, each under `:.1f`. -/
def display_statistics (student_list : Roster) : List Out :=
  let averages := collect_averages student_list
  if averages.isEmpty then []
  else
    [.separator,
     .highestLine (round1 (pymaxQ averages)),
     .lowestLine (round1 (pyminQ averages)),
     .classAvgLine (round1 (averages.sum / (averages.length : ℚ))),
     .separator]

/-- `generate_full_report`: header, then either the empty-roster message or
the per-student lines followed (when some student has grades) by the
statistics block. -/
def generate_full_report (student_list : Roster) : List Out :=
  .reportHeader ::
    (if student_list.isEmpty then [.noStudentsMsg]
     else
       display_student_grades student_list ++
         (if has_graded_students student_list then display_statistics student_list
          else []))

/-- Python `max(iterable, key=k)` with the head as the running best: the
running best is replaced only on a strictly greater key, so the first
maximal element wins. -/
def pymax (key : Student → ℚ) : Student → List Student → Student
  | best, [] => best
  | best, s :: rest => pymax key (if key s > key best then s else best) rest

/-- `find_top_performer`: `max(students_with_grades, key=average)`;
`none` models the `ValueError` Python would raise on an empty list
(the caller guards against it). -/
def find_top_performer : List Student → Option Student
  | [] => none
  | s :: rest => some (pymax (fun t => avg t.grades) s rest)

/-- `display_top_student`: the top-student line with the `:.1f` average. -/
def display_top_student (student : Student) : List Out :=
  [.topStudentLine student.name (round1 (avg student.grades))]

/-- `find_best_student`: empty-roster message, or no-grades message, or the
top performer among the records with grades. -/
def find_best_student (student_list : Roster) : List Out :=
  if student_list.isEmpty then [.noStudentsMsg]
  else
    let graded_students := student_list.filter fun s => !s.grades.isEmpty
    if graded_students.isEmpty then [.noGradedMsg]
    else
      match find_top_performer graded_students with
      | some best => display_top_student best
      | none => []

/-- The action a menu choice dispatches to via the `options` dict. -/
inductive MenuAction where
  | addStudent
  | addGrades
  | report
  | top
  | exitProg
  | invalid
deriving Repr, DecidableEq

/-- `get_menu_choice` on the pending input lines: loops past tokens
`int(...)` rejects, returns the first integer; `none` when the input runs
out while still prompting. -/
def get_menu_choice : List String → Option Int
  | [] => none
  | line :: rest =>
    match pyParseInt line with
    | some n => some n
    | none => get_menu_choice rest

/-- `handle_user_choice`: the `options` dict with `invalid_choice` as the
`.get` default. -/
def handle_user_choice (choice : Int) : MenuAction :=
  if choice = 1 then .addStudent
  else if choice = 2 then .addGrades
  else if choice = 3 then .report
  else if choice = 4 then .top
  else if choice = 5 then .exitProg
  else .invalid

/-- Effect of one dispatched action on the roster, with the flag recording
whether `exit_program` terminates the loop.  `report` and `top` only
print; `invalid_choice` only prints `Invalid option selected`. -/
def run_action (a : MenuAction) (student_list : Roster) (script : List String) :
    Roster × Bool :=
  match a with
  | .addStudent => (add_new_student student_list script, false)
  | .addGrades =>
      match script with
      | [] => (student_list, false)
      | name :: rest => (add_student_grades student_list name rest, false)
  | .report => (student_list, false)
  | .top => (student_list, false)
  | .exitProg => (student_list, true)
  | .invalid => (student_list, false)

/-- Invariant: every stored grade lies in `[0, 100]`. -/
def gradesInv (student_list : Roster) : Prop :=
  ∀ s ∈ student_list, ∀ g ∈ s.grades, 0 ≤ g ∧ g ≤ 100

/-- Invariant: no two records share a name. -/
def namesNodup (student_list : Roster) : Prop :=
  (student_list.map Student.name).Nodup

/-! ### Helper lemmas -/

/-- A value accepted by `validate_grade_input` lies in `[0, 100]`. -/
theorem validate_grade_input_bounds {t : String} {g : Int}
    (h : validate_grade_input t = some g) : 0 ≤ g ∧ g ≤ 100 := by
  unfold validate_grade_input at h
  rcases hp : pyParseInt t with _ | v <;> rw [hp] at h <;> dsimp only at h
  case none => exact absurd h (by simp)
  case some =>
    split_ifs at h with hb
    cases h
    exact hb

/-- The grade sub-loop only ever appends values in `[0, 100]`. -/
theorem add_grades_to_student_bounds {grades : List Int}
    (hg : ∀ g ∈ grades, 0 ≤ g ∧ g ≤ 100) (inputs : List String) :
    ∀ g ∈ add_grades_to_student grades inputs, 0 ≤ g ∧ g ≤ 100 := by
  induction inputs generalizing grades with
  | nil => simpa [add_grades_to_student] using hg
  | cons i rest ih =>
    by_cases hd : pyLower i == "done"
    · simpa [add_grades_to_student, hd] using hg
    · rcases hv : validate_grade_input i with _ | g₀
      · simpa [add_grades_to_student, hd, hv] using ih hg
      · have hg₀ := validate_grade_input_bounds hv
        have hg' : ∀ g ∈ grades ++ [g₀], 0 ≤ g ∧ g ≤ 100 := by
          intro g hmem
          rcases List.mem_append.1 hmem with hmem | hmem
          · exact hg g hmem
          · simp only [List.mem_singleton] at hmem
            exact hmem ▸ hg₀
        simpa [add_grades_to_student, hd, hv] using ih hg'

/-- `find_student_by_name` returns a member carrying the searched name. -/
theorem find_student_by_name_mem {name : String} {student_list : Roster} {s : Student}
    (h : find_student_by_name name student_list = some s) :
    s ∈ student_list ∧ s.name = name := by
  induction student_list with
  | nil => exact absurd h (by simp [find_student_by_name])
  | cons p rest ih =>
    rw [find_student_by_name] at h
    by_cases hp : p.name == name
    · rw [if_pos hp] at h
      cases h
      exact ⟨List.mem_cons_self .., by simpa using hp⟩
    · rw [if_neg hp] at h
      obtain ⟨hmem, hname⟩ := ih h
      exact ⟨List.mem_cons_of_mem _ hmem, hname⟩

/-- `update_first` does not change the sequence of names. -/
theorem update_first_map_name (name : String) (newGrades : List Int)
    (student_list : Roster) :
    (update_first name newGrades student_list).map Student.name =
      student_list.map Student.name := by
  induction student_list with
  | nil => rfl
  | cons p rest ih =>
    rw [update_first]
    by_cases hp : p.name == name
    · simp [hp]
    · simp [hp, ih]

/-- Every record of `update_first name g l` is a record of `l`, possibly with
its grade list replaced by `g`. -/
theorem update_first_mem {name : String} {newGrades : List Int}
    {student_list : Roster} {s : Student}
    (h : s ∈ update_first name newGrades student_list) :
    s ∈ student_list ∨ ∃ t ∈ student_list, s = { t with grades := newGrades } := by
  induction student_list with
  | nil => exact absurd h (by simp [update_first])
  | cons p rest ih =>
    rw [update_first] at h
    by_cases hp : p.name == name
    · rw [if_pos hp] at h
      rcases List.mem_cons.1 h with h | h
      · exact Or.inr ⟨p, List.mem_cons_self .., h⟩
      · exact Or.inl (List.mem_cons_of_mem _ h)
    · rw [if_neg hp] at h
      rcases List.mem_cons.1 h with h | h
      · exact Or.inl (h ▸ List.mem_cons_self ..)
      · rcases ih h with h | ⟨t, ht, hs⟩
        · exact Or.inl (List.mem_cons_of_mem _ h)
        · exact Or.inr ⟨t, List.mem_cons_of_mem _ ht, hs⟩

/-- A name accepted by `get_valid_student_name` is valid and not already in
the roster. -/
theorem get_valid_student_name_fresh {students : Roster} {inputs : List String}
    {n : String} (h : get_valid_student_name students inputs = some (some n)) :
    is_valid_name n = true ∧ is_duplicate_name n students = false := by
  induction inputs with
  | nil => exact absurd h (by simp [get_valid_student_name])
  | cons line rest ih =>
    rw [get_valid_student_name] at h
    by_cases hv : is_valid_name (pyStrip line)
    · rw [if_neg (by simpa using hv)] at h
      by_cases hd : is_duplicate_name (pyStrip line) students
      · rw [if_pos hd] at h
        exact absurd h (by simp)
      · rw [if_neg hd] at h
        cases h
        exact ⟨hv, by simpa using hd⟩
    · rw [if_pos (by simpa using hv)] at h
      exact ih h

/-- No record of the roster carries a name that `is_duplicate_name` rejects. -/
theorem is_duplicate_name_eq_false {name : String} {student_list : Roster}
    (h : is_duplicate_name name student_list = false) :
    name ∉ student_list.map Student.name := by
  intro hmem
  obtain ⟨s, hs, hname⟩ := List.mem_map.1 hmem
  have : is_duplicate_name name student_list = true :=
    List.any_eq_true.2 ⟨s, hs, by simp [hname]⟩
  rw [h] at this
  cases this

/-- `add_new_student` leaves the roster alone or appends one fresh record
with an empty grade list. -/
theorem add_new_student_cases (student_list : Roster) (inputs : List String) :
    add_new_student student_list inputs = student_list ∨
      ∃ n, n ∉ student_list.map Student.name ∧ is_valid_name n = true ∧
        add_new_student student_list inputs =
          student_list ++ [⟨n, []⟩] := by
  unfold add_new_student
  rcases hr : get_valid_student_name student_list inputs with _ | r
  · exact Or.inl rfl
  · rcases r with _ | n
    · exact Or.inl rfl
    · obtain ⟨hv, hd⟩ := get_valid_student_name_fresh hr
      exact Or.inr ⟨n, is_duplicate_name_eq_false hd, hv, rfl⟩

/-! ### Claims -/

/-- C1 (counterexample): the claim says an empty entered name makes the
add-student operation abort back to the menu with the roster unchanged; in
the code an empty name only re-prompts, so with pending input
`["", "Alice"]` on an empty roster a record is still created and the
roster does change. -/
theorem C1_counterexample :
    add_new_student [] ["", "Alice"] = [⟨"Alice", []⟩] ∧
      add_new_student [] ["", "Alice"] ≠ [] := by decide

/-- C1 (amended): an empty or all-digit entered name is rejected and the
user is re-prompted (that token creates no record and leaves the roster
unchanged); a duplicate entered name aborts the operation back to the menu
with no record created and the roster unchanged. -/
theorem C1_add_student_validation (student_list : Roster) (line : String)
    (rest : List String) :
    (is_valid_name (pyStrip line) = false →
      add_new_student student_list (line :: rest) =
        add_new_student student_list rest) ∧
    (is_valid_name (pyStrip line) = true →
      is_duplicate_name (pyStrip line) student_list = true →
      add_new_student student_list (line :: rest) = student_list) := by
  constructor
  · intro hv
    unfold add_new_student
    rw [get_valid_student_name, if_pos (by simp [hv])]
  · intro hv hd
    unfold add_new_student
    rw [get_valid_student_name, if_neg (by simp [hv]), if_pos hd]

/-- C1 witness: entering the duplicate name `Alice` aborts and leaves the
one-record roster unchanged. -/
theorem C1_witness :
    is_valid_name (pyStrip "Alice") = true ∧
      is_duplicate_name (pyStrip "Alice") [⟨"Alice", []⟩] = true ∧
      add_new_student [⟨"Alice", []⟩] ["Alice", "Bob"] = [⟨"Alice", []⟩] :=
  ⟨by decide, by decide,
    (C1_add_student_validation [⟨"Alice", []⟩] "Alice" ["Bob"]).2
      (by decide) (by decide)⟩

/-- C7: the grade sub-loop extends the student's grade list by exactly the
valid tokens entered before the sentinel (or before the input ran out), in
entry order; invalid tokens contribute nothing and earlier appends are
never rolled back. -/
theorem C7_grades_appended (grades : List Int) (inputs : List String) :
    add_grades_to_student grades inputs =
      grades ++
        (inputs.takeWhile fun i => !(pyLower i == "done")).filterMap
          validate_grade_input := by
  induction inputs generalizing grades with
  | nil => simp [add_grades_to_student]
  | cons i rest ih =>
    rw [add_grades_to_student]
    by_cases hd : pyLower i == "done"
    · simp [hd, List.takeWhile_cons]
    · rw [if_neg hd]
      rcases hv : validate_grade_input i with _ | g <;> dsimp only <;> rw [ih] <;>
        simp [List.takeWhile_cons, hd, hv]

/-- C9: on an empty roster the report prints its header and the
no-students message only, and the top-performer operation prints the
no-students message only; neither dispatch changes the roster. -/
theorem C9_empty_roster :
    generate_full_report [] = [.reportHeader, .noStudentsMsg] ∧
      find_best_student [] = [.noStudentsMsg] ∧
      run_action .report [] [] = ([], false) ∧
      run_action .top [] [] = ([], false) := by decide

/-- C10: a token whose lowercase form is `done` ends the grade sub-loop
without touching the grade list; any other token continues the loop,
contributing its validated value (if any) to the grade list. -/
theorem C10_done_sentinel (grades : List Int) (i : String) (rest : List String) :
    (pyLower i = "done" → add_grades_to_student grades (i :: rest) = grades) ∧
    (pyLower i ≠ "done" →
      add_grades_to_student grades (i :: rest) =
        add_grades_to_student (grades ++ (validate_grade_input i).toList) rest) := by
  constructor
  · intro hd
    rw [add_grades_to_student, if_pos (by simp [hd])]
  · intro hd
    rw [add_grades_to_student, if_neg (by simpa using hd)]
    rcases hv : validate_grade_input i with _ | g
    · simp
    · simp

/-- C10 witness: `DONE` ends the sub-loop at once, leaving the grade list
as it was. -/
theorem C10_witness :
    pyLower "DONE" = "done" ∧ add_grades_to_student [7] ["DONE", "5"] = [7] :=
  ⟨by decide, (C10_done_sentinel [7] "DONE" ["5"]).1 (by decide)⟩

/-- C5: every operation keeps all stored grades inside `[0, 100]`: adding a
student creates an empty grade list, the grade sub-loop only appends
validated values, and a token that fails validation (non-numeric or out of
range) changes nothing. -/
theorem C5_grade_invariant (student_list : Roster) (h : gradesInv student_list) :
    (∀ inputs, gradesInv (add_new_student student_list inputs)) ∧
    (∀ name_input grade_inputs,
      gradesInv (add_student_grades student_list name_input grade_inputs)) ∧
    (∀ t, validate_grade_input t = none → pyLower t ≠ "done" →
      ∀ grades rest,
        add_grades_to_student grades (t :: rest) =
          add_grades_to_student grades rest) := by
  refine ⟨?_, ?_, ?_⟩
  · intro inputs
    rcases add_new_student_cases student_list inputs with hc | ⟨n, _, _, hc⟩ <;>
      rw [hc]
    · exact h
    · intro s hs
      rcases List.mem_append.1 hs with hs | hs
      · exact h s hs
      · simp only [List.mem_singleton] at hs
        subst hs
        intro g hg
        cases hg
  · intro name_input grade_inputs
    rcases hf : find_student_by_name (pyStrip name_input) student_list with _ | st
    · simpa only [add_student_grades, hf] using h
    · obtain ⟨hmem, _⟩ := find_student_by_name_mem hf
      have hbound := add_grades_to_student_bounds (h st hmem) grade_inputs
      simp only [add_student_grades, hf]
      intro s hs
      rcases update_first_mem hs with hs | ⟨t, _, hst⟩
      · exact h s hs
      · subst hst
        simpa using hbound
  · intro t hv hd grades rest
    rw [add_grades_to_student, if_neg (by simpa using hd), hv]

/-- C5 witness: with `Alice` holding grade 50, the sub-loop script
`["101", "abc", "60", "done"]` keeps every stored grade in range. -/
theorem C5_witness :
    gradesInv [⟨"Alice", [50]⟩] ∧
      gradesInv (add_student_grades [⟨"Alice", [50]⟩] "Alice"
        ["101", "abc", "60", "done"]) :=
  ⟨by unfold gradesInv; decide,
    (C5_grade_invariant [⟨"Alice", [50]⟩] (by unfold gradesInv; decide)).2.1 "Alice"
      ["101", "abc", "60", "done"]⟩

/-- C6: no operation ever makes two records share a name: adding a student
either changes nothing or appends a record whose name is absent from the
roster, adding grades never touches the name sequence, and the duplicate
check is an exact, case-sensitive string comparison. -/
theorem C6_name_uniqueness (student_list : Roster) (h : namesNodup student_list) :
    (∀ inputs,
      namesNodup (add_new_student student_list inputs) ∧
      (add_new_student student_list inputs = student_list ∨
        ∃ n, n ∉ student_list.map Student.name ∧
          add_new_student student_list inputs = student_list ++ [⟨n, []⟩])) ∧
    (∀ name_input grade_inputs,
      (add_student_grades student_list name_input grade_inputs).map Student.name =
        student_list.map Student.name) ∧
    (∀ name, is_duplicate_name name student_list = true ↔
      ∃ s ∈ student_list, s.name = name) := by
  refine ⟨?_, ?_, ?_⟩
  · intro inputs
    rcases add_new_student_cases student_list inputs with hc | ⟨n, hn, _, hc⟩
    · exact ⟨by rw [hc]; exact h, Or.inl hc⟩
    · refine ⟨?_, Or.inr ⟨n, hn, hc⟩⟩
      rw [hc]
      unfold namesNodup
      rw [List.map_append]
      exact List.Nodup.append h (List.nodup_singleton n)
        (by simpa [List.disjoint_singleton] using hn)
  · intro name_input grade_inputs
    rcases hf : find_student_by_name (pyStrip name_input) student_list with _ | st <;>
      simp only [add_student_grades, hf]
    exact update_first_map_name ..
  · intro name
    unfold is_duplicate_name
    rw [List.any_eq_true]
    constructor
    · rintro ⟨s, hs, he⟩
      exact ⟨s, hs, by simpa using (beq_iff_eq.1 he).symm⟩
    · rintro ⟨s, hs, he⟩
      exact ⟨s, hs, by simp [he]⟩

/-- C6 witness: adding grades to `Alice` keeps the name sequence, and thus
its uniqueness, intact. -/
theorem C6_witness :
    namesNodup ([⟨"Alice", []⟩, ⟨"Bob", [1]⟩] : Roster) ∧
      (add_student_grades [⟨"Alice", []⟩, ⟨"Bob", [1]⟩] "Alice"
          ["50", "done"]).map Student.name =
        ([⟨"Alice", []⟩, ⟨"Bob", [1]⟩] : Roster).map Student.name :=
  ⟨by unfold namesNodup; decide,
    (C6_name_uniqueness [⟨"Alice", []⟩, ⟨"Bob", [1]⟩]
      (by unfold namesNodup; decide)).2.1 "Alice" ["50", "done"]⟩

/-- C8: a non-numeric menu token only re-prompts, an integer outside 1–5
dispatches to `invalid_choice` (which leaves the roster as it is), choices
1–4 dispatch to the four operations in order, and choice 5 exits. -/
theorem C8_menu_dispatch :
    (∀ line rest, pyParseInt line = none →
      get_menu_choice (line :: rest) = get_menu_choice rest) ∧
    pyParseInt "abc" = none ∧
    (∀ choice : Int, choice < 1 ∨ 5 < choice →
      handle_user_choice choice = .invalid) ∧
    (∀ student_list script,
      run_action .invalid student_list script = (student_list, false)) ∧
    handle_user_choice 1 = .addStudent ∧
    handle_user_choice 2 = .addGrades ∧
    handle_user_choice 3 = .report ∧
    handle_user_choice 4 = .top ∧
    handle_user_choice 5 = .exitProg ∧
    (∀ student_list script,
      run_action .exitProg student_list script = (student_list, true)) := by
  refine ⟨?_, by decide, ?_, fun _ _ => rfl, rfl, rfl, rfl, rfl, rfl,
    fun _ _ => rfl⟩
  · intro line rest hline
    rw [get_menu_choice, hline]
  · intro choice hc
    unfold handle_user_choice
    split_ifs with h1 h2 h3 h4 h5 <;> first
      | rfl
      | (exfalso; omega)

/-- C8 witness: the token `abc` is skipped by the menu reader and the
choice 6 falls through to `invalid_choice`. -/
theorem C8_witness :
    pyParseInt "abc" = none ∧
      get_menu_choice ["abc", "6"] = get_menu_choice ["6"] ∧
      ((6 : Int) < 1 ∨ (5 : Int) < 6) ∧
      handle_user_choice 6 = .invalid :=
  ⟨by decide, C8_menu_dispatch.1 "abc" ["6"] (by decide), by decide,
    C8_menu_dispatch.2.2.1 6 (by decide)⟩

/-- C4: the report prints one line per record, in order, carrying the
arithmetic mean of that record's grades, or the `N/A` sentinel exactly for
an empty grade list; `[70, 80, 90]` averages to 80. -/
theorem C4_average_display :
    (∀ student_list : Roster,
      display_student_grades student_list =
        student_list.map fun s =>
          .studentAvgLine s.name (calculate_average_grade s.grades)) ∧
    (∀ student_list : Roster, student_list ≠ [] →
      ∃ tail, generate_full_report student_list =
        .reportHeader :: display_student_grades student_list ++ tail) ∧
    (∀ grades : List Int, grades ≠ [] →
      calculate_average_grade grades =
        some ((grades.sum : ℚ) / (grades.length : ℚ))) ∧
    calculate_average_grade [] = none ∧
    calculate_average_grade [70, 80, 90] = some 80 := by
  refine ⟨?_, ?_, ?_, rfl, by norm_num [calculate_average_grade]⟩
  · intro student_list
    induction student_list with
    | nil => rfl
    | cons p rest ih => rw [display_student_grades, ih, List.map_cons]
  · intro student_list hne
    unfold generate_full_report
    rw [if_neg (by simpa using hne)]
    exact ⟨_, rfl⟩
  · intro grades hne
    unfold calculate_average_grade
    rw [if_neg (by simpa using hne)]

/-- C4 witness: a student with grades 70, 80, 90 reports the average 80. -/
theorem C4_witness : calculate_average_grade [70, 80, 90] = some 80 := by
  have h := C4_average_display.2.2.1 [70, 80, 90] (by decide)
  rw [h]
  norm_num

/-- Python `max` with a key keeps the first element attaining the maximum:
the start list splits around the result, with strictly smaller keys before
it and no larger key after it. -/
theorem pymax_spec (key : Student → ℚ) (b : Student) (l : List Student) :
    ∃ l1 l2, b :: l = l1 ++ pymax key b l :: l2 ∧
      key b ≤ key (pymax key b l) ∧
      (∀ s ∈ l1, key s < key (pymax key b l)) ∧
      (∀ s ∈ l2, key s ≤ key (pymax key b l)) := by
  induction l generalizing b with
  | nil => exact ⟨[], [], rfl, le_refl _, by simp, by simp⟩
  | cons s rest ih =>
    rw [pymax]
    by_cases h : key s > key b
    · rw [if_pos h]
      obtain ⟨l1, l2, hdec, hle, h1, h2⟩ := ih s
      refine ⟨b :: l1, l2, ?_, le_of_lt (lt_of_lt_of_le h hle), ?_, h2⟩
      · rw [List.cons_append, ← hdec]
      · intro x hx
        rcases List.mem_cons.1 hx with hx | hx
        · exact hx ▸ lt_of_lt_of_le h hle
        · exact h1 x hx
    · rw [if_neg h]
      push_neg at h
      obtain ⟨l1, l2, hdec, hle, h1, h2⟩ := ih b
      rcases l1 with _ | ⟨b', l1'⟩
      · rw [List.nil_append] at hdec
        injection hdec with hb hrest
        refine ⟨[], s :: rest, ?_, hle, by simp, ?_⟩
        · rw [List.nil_append, ← hb]
        · intro x hx
          rcases List.mem_cons.1 hx with hx | hx
          · subst hx
            calc key x ≤ key b := h
              _ ≤ key (pymax key b rest) := hle
          · exact h2 x (hrest ▸ hx)
      · rw [List.cons_append] at hdec
        injection hdec with hb hrest
        subst hb
        refine ⟨b :: s :: l1', l2, ?_, hle, ?_, h2⟩
        · rw [List.cons_append, List.cons_append, ← hrest]
        · intro x hx
          have hblt : key b < key (pymax key b rest) :=
            h1 b (List.mem_cons_self ..)
          rcases List.mem_cons.1 hx with hx | hx
          · exact hx ▸ hblt
          · rcases List.mem_cons.1 hx with hx | hx
            · exact hx ▸ lt_of_le_of_lt h hblt
            · exact h1 x (List.mem_cons_of_mem _ hx)

/-- The `pymax` result has the largest key of the whole list. -/
theorem pymax_le (key : Student → ℚ) (b : Student) (l : List Student) :
    ∀ s ∈ b :: l, key s ≤ key (pymax key b l) := by
  obtain ⟨l1, l2, hdec, _, h1, h2⟩ := pymax_spec key b l
  intro s hs
  rw [hdec] at hs
  rcases List.mem_append.1 hs with hs | hs
  · exact le_of_lt (h1 s hs)
  · rcases List.mem_cons.1 hs with hs | hs
    · exact hs ▸ le_refl _
    · exact h2 s hs

/-- C2: when some record has grades, the top-performer operation reports
exactly one line, naming a graded record of maximal average (first
occurrence wins ties) together with that average rounded to one decimal;
on `Alice:[90,80], Bob:[60]` it names `Alice` with 85.0. -/
theorem C2_top_performer :
    (∀ student_list : Roster, (∃ s ∈ student_list, s.grades ≠ []) →
      ∃ best l1 l2,
        find_best_student student_list =
          [.topStudentLine best.name (round1 (avg best.grades))] ∧
        student_list.filter (fun s => !s.grades.isEmpty) = l1 ++ best :: l2 ∧
        (∀ s ∈ l1, avg s.grades < avg best.grades) ∧
        (∀ s ∈ l2, avg s.grades ≤ avg best.grades) ∧
        (∀ s ∈ student_list, s.grades ≠ [] →
          avg s.grades ≤ avg best.grades)) ∧
    find_best_student [⟨"Alice", [90, 80]⟩, ⟨"Bob", [60]⟩] =
      [.topStudentLine "Alice" 85] := by
  constructor
  · rintro student_list ⟨s0, hs0, hg0⟩
    have hne : student_list ≠ [] := by rintro rfl; cases hs0
    have hs0f : s0 ∈ student_list.filter fun s => !s.grades.isEmpty :=
      List.mem_filter.2 ⟨hs0, by simpa using hg0⟩
    rcases hfil : student_list.filter (fun s => !s.grades.isEmpty) with _ | ⟨g, gs⟩
    · rw [hfil] at hs0f
      cases hs0f
    · have hrun : find_best_student student_list =
          display_top_student (pymax (fun t => avg t.grades) g gs) := by
        unfold find_best_student
        rw [if_neg (by simpa [List.isEmpty_iff] using hne)]
        dsimp only
        rw [hfil, if_neg (by simp), find_top_performer]
      obtain ⟨l1, l2, hdec, _, h1, h2⟩ := pymax_spec (fun t => avg t.grades) g gs
      refine ⟨pymax (fun t => avg t.grades) g gs, l1, l2,
        hrun, by rw [hfil, hdec], h1, h2, ?_⟩
      intro s hs hg
      have : s ∈ student_list.filter fun s => !s.grades.isEmpty :=
        List.mem_filter.2 ⟨hs, by simpa using hg⟩
      rw [hfil] at this
      exact pymax_le (fun t => avg t.grades) g gs s this
  · norm_num [find_best_student, find_top_performer, pymax, avg,
      display_top_student, round1]

/-- C2 witness: the general statement instantiated on the roster
`Alice:[90,80], Bob:[60]`. -/
theorem C2_witness :
    (∃ s ∈ ([⟨"Alice", [90, 80]⟩, ⟨"Bob", [60]⟩] : Roster), s.grades ≠ []) ∧
      ∃ best l1 l2,
        find_best_student [⟨"Alice", [90, 80]⟩, ⟨"Bob", [60]⟩] =
          [.topStudentLine best.name (round1 (avg best.grades))] ∧
        ([⟨"Alice", [90, 80]⟩, ⟨"Bob", [60]⟩] : Roster).filter
            (fun s => !s.grades.isEmpty) = l1 ++ best :: l2 ∧
        (∀ s ∈ l1, avg s.grades < avg best.grades) ∧
        (∀ s ∈ l2, avg s.grades ≤ avg best.grades) ∧
        (∀ s ∈ ([⟨"Alice", [90, 80]⟩, ⟨"Bob", [60]⟩] : Roster),
          s.grades ≠ [] → avg s.grades ≤ avg best.grades) :=
  ⟨⟨⟨"Alice", [90, 80]⟩, by decide, by decide⟩,
    C2_top_performer.1 _ ⟨⟨"Alice", [90, 80]⟩, by decide, by decide⟩⟩

/-- A left fold with `max` yields a value of the list (or the start value)
that bounds the start value and every element from above. -/
theorem foldl_max_spec (l : List ℚ) (q : ℚ) :
    (l.foldl max q = q ∨ l.foldl max q ∈ l) ∧ q ≤ l.foldl max q ∧
      ∀ a ∈ l, a ≤ l.foldl max q := by
  induction l generalizing q with
  | nil => simp
  | cons x t ih =>
    rw [List.foldl_cons]
    obtain ⟨hmem, hle, hall⟩ := ih (max q x)
    refine ⟨?_, le_trans (le_max_left ..) hle, ?_⟩
    · rcases hmem with hm | hm
      · rcases max_choice q x with hq | hq
        · exact Or.inl (hm.trans hq)
        · exact Or.inr (by rw [hm, hq]; exact List.mem_cons_self ..)
      · exact Or.inr (List.mem_cons_of_mem _ hm)
    · intro a ha
      rcases List.mem_cons.1 ha with ha | ha
      · subst ha
        exact le_trans (le_max_right q a) hle
      · exact hall a ha

/-- A left fold with `min` yields a value of the list (or the start value)
that bounds the start value and every element from below. -/
theorem foldl_min_spec (l : List ℚ) (q : ℚ) :
    (l.foldl min q = q ∨ l.foldl min q ∈ l) ∧ l.foldl min q ≤ q ∧
      ∀ a ∈ l, l.foldl min q ≤ a := by
  induction l generalizing q with
  | nil => simp
  | cons x t ih =>
    rw [List.foldl_cons]
    obtain ⟨hmem, hle, hall⟩ := ih (min q x)
    refine ⟨?_, le_trans hle (min_le_left ..), ?_⟩
    · rcases hmem with hm | hm
      · rcases min_choice q x with hq | hq
        · exact Or.inl (hm.trans hq)
        · exact Or.inr (by rw [hm, hq]; exact List.mem_cons_self ..)
      · exact Or.inr (List.mem_cons_of_mem _ hm)
    · intro a ha
      rcases List.mem_cons.1 ha with ha | ha
      · subst ha
        exact le_trans hle (min_le_right q a)
      · exact hall a ha

/-- The statistics loop collects exactly the averages of the graded
records, in order. -/
theorem collect_averages_eq (student_list : Roster) :
    collect_averages student_list =
      (student_list.filter fun s => !s.grades.isEmpty).map
        fun s => avg s.grades := by
  induction student_list with
  | nil => rfl
  | cons p rest ih =>
    by_cases hp : p.grades.isEmpty <;>
      simp [collect_averages, List.filter_cons, hp, ih]

/-- C3: when some record has grades the report ends with exactly the
three aggregate lines — maximum, minimum and mean of the averages of the
graded records, each rounded to one decimal — inside separator lines;
when no record has grades the aggregate block is omitted. -/
theorem C3_statistics :
    (∀ student_list : Roster, (∃ s ∈ student_list, s.grades ≠ []) →
      ∃ M m : ℚ,
        collect_averages student_list =
          (student_list.filter fun s => !s.grades.isEmpty).map
            (fun s => avg s.grades) ∧
        M ∈ collect_averages student_list ∧
        (∀ a ∈ collect_averages student_list, a ≤ M) ∧
        m ∈ collect_averages student_list ∧
        (∀ a ∈ collect_averages student_list, m ≤ a) ∧
        generate_full_report student_list =
          .reportHeader :: display_student_grades student_list ++
            [.separator, .highestLine (round1 M), .lowestLine (round1 m),
             .classAvgLine (round1 ((collect_averages student_list).sum /
               ((collect_averages student_list).length : ℚ))), .separator]) ∧
    (∀ student_list : Roster, student_list ≠ [] →
      (∀ s ∈ student_list, s.grades = []) →
      generate_full_report student_list =
        .reportHeader :: display_student_grades student_list) := by
  constructor
  · rintro student_list ⟨s0, hs0, hg0⟩
    have hne : student_list ≠ [] := by rintro rfl; cases hs0
    have hmem0 : avg s0.grades ∈ collect_averages student_list := by
      rw [collect_averages_eq]
      exact List.mem_map.2 ⟨s0, List.mem_filter.2 ⟨hs0, by simpa using hg0⟩, rfl⟩
    have hgr : has_graded_students student_list = true :=
      List.any_eq_true.2 ⟨s0, hs0, by simpa using hg0⟩
    have hLne : student_list.isEmpty = false := by
      simp [List.isEmpty_iff, hne]
    rcases havgs : collect_averages student_list with _ | ⟨a, as⟩
    · rw [havgs] at hmem0
      cases hmem0
    · obtain ⟨hMmem, _, hMall⟩ := foldl_max_spec as a
      obtain ⟨hmmem, _, hmall⟩ := foldl_min_spec as a
      refine ⟨pymaxQ (a :: as), pyminQ (a :: as),
        by rw [← havgs]; exact collect_averages_eq _, ?_, ?_, ?_, ?_, ?_⟩
      · rw [pymaxQ]
        rcases hMmem with hM | hM
        · rw [hM]
          exact List.mem_cons_self ..
        · exact List.mem_cons_of_mem _ hM
      · rw [pymaxQ]
        intro x hx
        rcases List.mem_cons.1 hx with hx | hx
        · subst hx
          exact (foldl_max_spec as x).2.1
        · exact hMall x hx
      · rw [pyminQ]
        rcases hmmem with hm | hm
        · rw [hm]
          exact List.mem_cons_self ..
        · exact List.mem_cons_of_mem _ hm
      · rw [pyminQ]
        intro x hx
        rcases List.mem_cons.1 hx with hx | hx
        · subst hx
          exact (foldl_min_spec as x).2.1
        · exact hmall x hx
      · simp [generate_full_report, display_statistics, hLne, hgr, havgs]
  · intro student_list hne hall
    have hgr : has_graded_students student_list = false := by
      rw [has_graded_students, List.any_eq_false]
      intro s hs
      simp [hall s hs]
    have hLne : student_list.isEmpty = false := by
      simp [List.isEmpty_iff, hne]
    simp [generate_full_report, hLne, hgr]

/-- C3 witness: the aggregate block on `Alice:[90,80], Bob:[60]`. -/
theorem C3_witness :
    (∃ s ∈ ([⟨"Alice", [90, 80]⟩, ⟨"Bob", [60]⟩] : Roster), s.grades ≠ []) ∧
      ∃ M m : ℚ,
        collect_averages [⟨"Alice", [90, 80]⟩, ⟨"Bob", [60]⟩] =
          (([⟨"Alice", [90, 80]⟩, ⟨"Bob", [60]⟩] : Roster).filter
            fun s => !s.grades.isEmpty).map (fun s => avg s.grades) ∧
        M ∈ collect_averages [⟨"Alice", [90, 80]⟩, ⟨"Bob", [60]⟩] ∧
        (∀ a ∈ collect_averages [⟨"Alice", [90, 80]⟩, ⟨"Bob", [60]⟩], a ≤ M) ∧
        m ∈ collect_averages [⟨"Alice", [90, 80]⟩, ⟨"Bob", [60]⟩] ∧
        (∀ a ∈ collect_averages [⟨"Alice", [90, 80]⟩, ⟨"Bob", [60]⟩], m ≤ a) ∧
        generate_full_report [⟨"Alice", [90, 80]⟩, ⟨"Bob", [60]⟩] =
          .reportHeader ::
            display_student_grades [⟨"Alice", [90, 80]⟩, ⟨"Bob", [60]⟩] ++
            [.separator, .highestLine (round1 M), .lowestLine (round1 m),
             .classAvgLine (round1
               ((collect_averages [⟨"Alice", [90, 80]⟩, ⟨"Bob", [60]⟩]).sum /
                ((collect_averages
                  [⟨"Alice", [90, 80]⟩, ⟨"Bob", [60]⟩]).length : ℚ))),
             .separator] :=
  ⟨⟨⟨"Alice", [90, 80]⟩, by decide, by decide⟩,
    C3_statistics.1 _ ⟨⟨"Alice", [90, 80]⟩, by decide, by decide⟩⟩
